import Mathlib

/-!
Verification of the nextjs-youtube-dl front-end component and proxy
configuration.  The component keeps five pieces of state (url, loading,
error, downloadData, progress); its two helper functions are regular
expression matchers and its two handlers issue at most one backend request
each.  All definitions below are translated directly from the source files:
the download-form component and the Next.js configuration.
-/

/-- A JavaScript line terminator: the characters that the unflagged regex
metacharacter dot does not match (LF, CR, LINE SEPARATOR, PARAGRAPH
SEPARATOR). -/
def isLineTerm (c : Char) : Bool :=
  c == '\n' || c == '\r' || c.toNat == 0x2028 || c.toNat == 0x2029

/-- Match a literal pattern at the head of the input; on success return the
remainder of the input. -/
def stripPat : List Char → List Char → Option (List Char)
  | [], cs => some cs
  | _ :: _, [] => none
  | p :: ps, c :: cs => if c = p then stripPat ps cs else none

/-- The regex fragment dot-plus succeeds at this position: there is at least
one character here and it is not a line terminator. -/
def dotPlusAt : List Char → Bool
  | [] => false
  | c :: _ => !isLineTerm c

/-- Try a literal pattern, then continue with k on the remainder; false if
the pattern does not match here. -/
def tryPat (p : List Char) (k : List Char → Bool) (cs : List Char) : Bool :=
  match stripPat p cs with
  | some r => k r
  | none => false

/-- After the optional scheme and optional www dot, the regex requires one
of the two host alternatives, each followed by a slash, then dot-plus. -/
def hostCheck (cs : List Char) : Bool :=
  tryPat "youtube.com/".data dotPlusAt cs || tryPat "youtu.be/".data dotPlusAt cs

/-- After the optional scheme: the group for www dot is optional, so the
matcher tries it both present and absent. -/
def wwwCheck (cs : List Char) : Bool :=
  tryPat "www.".data hostCheck cs || hostCheck cs

/-- The validator from the component: it tests the anchored regex with an
optional http or https scheme group, an optional www group, the host
alternation, a slash and dot-plus.  The optional scheme group can match
"http://" or "https://" or be absent; alternation over those choices is
exactly the backtracking of the regex engine. -/
def isValidYouTubeUrl (url : String) : Bool :=
  tryPat "http://".data wwwCheck url.data ||
  tryPat "https://".data wwwCheck url.data ||
  wwwCheck url.data

/-- A JavaScript word character, the character class backslash-w:
ASCII letters, digits and underscore. -/
def isWordChar (c : Char) : Bool :=
  c.isAlpha || c.isDigit || c == '_'

/-- First alternative of the extractor regex: y o u t u, any non line
terminator (the dot in it is unescaped), b e and a slash. -/
def alt1 : List Char → Option (List Char)
  | 'y' :: 'o' :: 'u' :: 't' :: 'u' :: c :: 'b' :: 'e' :: '/' :: rest =>
      if isLineTerm c then none else some rest
  | _ => none

/-- Second alternative: v slash. -/
def alt2 : List Char → Option (List Char)
  | 'v' :: '/' :: rest => some rest
  | _ => none

/-- Third alternative: slash u slash, a word character, slash. -/
def alt3 : List Char → Option (List Char)
  | '/' :: 'u' :: '/' :: c :: '/' :: rest => if isWordChar c then some rest else none
  | _ => none

/-- Fourth alternative: e m b e d slash. -/
def alt4 : List Char → Option (List Char)
  | 'e' :: 'm' :: 'b' :: 'e' :: 'd' :: '/' :: rest => some rest
  | _ => none

/-- Fifth alternative: w a t c h question mark. -/
def alt5 : List Char → Option (List Char)
  | 'w' :: 'a' :: 't' :: 'c' :: 'h' :: '?' :: rest => some rest
  | _ => none

/-- The alternation of the five marker alternatives, tried in the order the
regex lists them. -/
def altMatch (cs : List Char) : Option (List Char) :=
  match alt1 cs with
  | some r => some r
  | none =>
  match alt2 cs with
  | some r => some r
  | none =>
  match alt3 cs with
  | some r => some r
  | none =>
  match alt4 cs with
  | some r => some r
  | none => alt5 cs

/-- The greedy leading dot-star of the extractor regex: it prefers the
rightmost position at which the alternation matches, and it cannot advance
past a line terminator.  Everything after the alternation in the regex is
optional, so once the alternation matches the whole regex matches. -/
def scanAlt : List Char → Option (List Char)
  | [] => altMatch []
  | c :: rest =>
      if isLineTerm c then altMatch (c :: rest)
      else
        match scanAlt rest with
        | some r => some r
        | none => altMatch (c :: rest)

/-- Skip one optional literal character, as the regex fragments question
mark opt, v opt, equals opt do. -/
def skipOpt (c : Char) : List Char → List Char
  | [] => []
  | d :: rest => if d = c then rest else d :: rest

/-- The seventh capture group: the greedy run of characters that are not
hash, ampersand or question mark.  This negated class does match line
terminators. -/
def group7 : List Char → List Char
  | [] => []
  | c :: rest => if c == '#' || c == '&' || c == '?' then [] else c :: group7 rest

/-- The seventh capture of the extractor regex on a url, or none when the
regex does not match at all. -/
def match7 (url : String) : Option (List Char) :=
  match scanAlt url.data with
  | none => none
  | some r => some (group7 (skipOpt '=' (skipOpt 'v' (skipOpt '?' r))))

/-- The extractor from the component: the seventh capture when the match
exists and that capture has length eleven, otherwise the false branch,
modelled as none. -/
def extractVideoId (url : String) : Option String :=
  match match7 url with
  | none => none
  | some g => if g.length = 11 then some (String.mk g) else none

/-- A transient JSON value, as produced by parsing a response body.  The
metadata returned by the backend is stored without validation, so the model
keeps it as an arbitrary JSON tree. -/
inductive Json where
  | null
  | bool (b : Bool)
  | num (n : Int)
  | str (s : String)
  | obj (fields : List (String × Json))

/-- Field lookup in a JSON object; with duplicate keys the last occurrence
wins, as it does for a parsed JSON text. -/
def lookupField : List (String × Json) → String → Option Json
  | [], _ => none
  | (k, v) :: rest, key =>
      match lookupField rest key with
      | some v2 => some v2
      | none => if k = key then some v else none

/-- Property access on a JSON value: none models an undefined property. -/
def Json.getField : Json → String → Option Json
  | Json.obj fields, key => lookupField fields key
  | _, _ => none

/-- The JSON body of a backend request.  In the download body an undefined
property is omitted from the serialised object, so the two metadata fields
are optional. -/
inductive ReqBody where
  | info (url : String)
  | download (url : String) (videoId : Option Json) (title : Option Json)

/-- One backend request issued through fetch. -/
structure Request where
  method : String
  path : String
  body : ReqBody

/-- The five pieces of component state. -/
structure CState where
  url : String
  loading : Bool
  error : String
  downloadData : Option Json
  progress : Nat

/-- Outcome of the metadata fetch as seen by the submit handler: an ok
response with a parsed body, a non-ok response, or a thrown error carrying
an optional message (none models an absent message). -/
inductive InfoOutcome where
  | success (info : Json)
  | httpError
  | netError (msg : Option String)

/-- Outcome of the download fetch as seen by the download handler. -/
inductive DlOutcome where
  | success
  | httpError
  | netError

/-- The JavaScript whitespace characters stripped by trim from either end
of a string: space, tab, line terminators, vertical tab, form feed,
no-break space, the byte order mark, and every code point of the space
separator category (ogham space mark, the en quad through hair space
range, narrow no-break space, medium mathematical space, ideographic
space). -/
def isJsWhitespace (c : Char) : Bool :=
  c == ' ' || c == '\t' || c == '\n' || c == '\r' ||
  c.toNat == 0x0b || c.toNat == 0x0c || c.toNat == 0xa0 ||
  c.toNat == 0x1680 ||
  (0x2000 ≤ c.toNat && c.toNat ≤ 0x200a) ||
  c.toNat == 0x202f || c.toNat == 0x205f || c.toNat == 0x3000 ||
  c.toNat == 0x2028 || c.toNat == 0x2029 || c.toNat == 0xfeff

/-- Drop leading whitespace. -/
def trimLeftData : List Char → List Char
  | [] => []
  | c :: rest => if isJsWhitespace c then trimLeftData rest else c :: rest

/-- The character list of the trimmed string: whitespace removed from both
ends. -/
def trimData (cs : List Char) : List Char :=
  (trimLeftData (trimLeftData cs.reverse).reverse)

/-- The truthiness choice msg-or-default made in the catch branch: an absent
or empty message is falsy and falls back to the default text. -/
def messageOrDefault (msg : Option String) (dflt : String) : String :=
  match msg with
  | none => dflt
  | some m => if m = "" then dflt else m

/-- The generic failure text of the submit handler. -/
def genericSubmitError : String := "An error occurred while processing the video"

/-- The metadata request: POST to the video-info path with the url in the
body. -/
def infoRequest (url : String) : Request :=
  { method := "POST", path := "/api/video-info", body := ReqBody.info url }

/-- The download request: POST to the download path with the url and the
videoId and title properties of the stored metadata in the body. -/
def downloadRequest (url : String) (dd : Json) : Request :=
  { method := "POST", path := "/api/download",
    body := ReqBody.download url (dd.getField "videoId") (dd.getField "title") }

/-- The submit handler as a state transition.  It first rejects an input
that is empty after trimming, then an input the validator refuses, in both
cases issuing no request.  Otherwise it resets loading, error, downloadData
and progress, issues the single metadata request, and depending on the
outcome stores the parsed body with progress one hundred, or stores the
message of the error thrown on a non-ok response, or stores the caught
message with its generic fallback; the finally branch clears loading on
every path. -/
def handleSubmit (s : CState) (outcome : InfoOutcome) : CState × List Request :=
  if trimData s.url.data = [] then
    ({ s with error := "Please enter a YouTube URL" }, [])
  else if isValidYouTubeUrl s.url = false then
    ({ s with error := "Please enter a valid YouTube URL" }, [])
  else
    match outcome with
    | InfoOutcome.success info =>
        ({ s with loading := false, error := "",
                  downloadData := some info, progress := 100 },
         [infoRequest s.url])
    | InfoOutcome.httpError =>
        ({ s with loading := false,
                  error := messageOrDefault (some "Failed to get video information")
                             genericSubmitError,
                  downloadData := none, progress := 0 },
         [infoRequest s.url])
    | InfoOutcome.netError msg =>
        ({ s with loading := false,
                  error := messageOrDefault msg genericSubmitError,
                  downloadData := none, progress := 0 },
         [infoRequest s.url])

/-- The download handler as a state transition.  With no stored metadata it
returns at once, touching nothing and issuing no request.  Otherwise it
issues the single download request; on success the bytes go to the browser
download machinery and the state is untouched, and on a non-ok response or
a thrown error the catch branch stores its fixed failure text. -/
def handleDownload (s : CState) (outcome : DlOutcome) : CState × List Request :=
  match s.downloadData with
  | none => (s, [])
  | some dd =>
      match outcome with
      | DlOutcome.success => (s, [downloadRequest s.url dd])
      | DlOutcome.httpError =>
          ({ s with error := "Download failed. Please try again." },
           [downloadRequest s.url dd])
      | DlOutcome.netError =>
          ({ s with error := "Download failed. Please try again." },
           [downloadRequest s.url dd])

/-- The helper functions are closures inside the component, so a stateful
elaboration gives them the state as input and output; their bodies mention
only their parameter and a local regex, never a state variable or a setter,
so the state passes through unchanged. -/
def isValidYouTubeUrlST (s : CState) (url : String) : Bool × CState :=
  (isValidYouTubeUrl url, s)

/-- Stateful elaboration of the extractor closure; see the validator
above. -/
def extractVideoIdST (s : CState) (url : String) : Option String × CState :=
  (extractVideoId url, s)

/-- The backend origin named by the rewrite destination. -/
def backendOrigin : String := "http://localhost:5000"

/-- The rewrite rule of the Next.js configuration, on paths represented as
their segment lists: the source pattern is the api segment followed by zero
or more further segments, and the destination is the same path at the
backend origin. -/
def rewriteApi (segs : List String) : Option (String × List String) :=
  match segs with
  | seg :: rest => if seg = "api" then some (backendOrigin, seg :: rest) else none
  | [] => none

/-- The optional scheme alternatives of the validator regex. -/
def schemeOpts : List (List Char) := [[], "http://".data, "https://".data]

/-- The optional www alternatives of the validator regex. -/
def wwwOpts : List (List Char) := [[], "www.".data]

/-- The host alternatives of the validator regex, each with its mandatory
trailing slash. -/
def hostOpts : List (List Char) := ["youtube.com/".data, "youtu.be/".data]

/-- The accepted shape as the specification words it: an optional scheme,
an optional www prefix, one of the two hosts followed by a slash, and at
least one further character. -/
def claimShape (cs : List Char) : Prop :=
  ∃ p1 ∈ schemeOpts, ∃ p2 ∈ wwwOpts, ∃ h ∈ hostOpts, ∃ rest,
    cs = p1 ++ (p2 ++ (h ++ rest)) ∧ rest ≠ []

/-- The accepted shape amended by what the dot metacharacter can match: the
character right after the slash must not be a line terminator. -/
def claimShapeAmended (cs : List Char) : Prop :=
  ∃ p1 ∈ schemeOpts, ∃ p2 ∈ wwwOpts, ∃ h ∈ hostOpts, ∃ c rest,
    cs = p1 ++ (p2 ++ (h ++ (c :: rest))) ∧ isLineTerm c = false

theorem stripPat_eq_some (p : List Char) :
    ∀ cs r : List Char, stripPat p cs = some r ↔ cs = p ++ r := by
  induction p with
  | nil =>
      intro cs r
      simp [stripPat, eq_comm]
  | cons x ps ih =>
      intro cs r
      cases cs with
      | nil => simp [stripPat]
      | cons c cs2 =>
          simp only [stripPat, List.cons_append, List.cons.injEq]
          by_cases h : c = x
          · subst h
            simp [ih]
          · simp [h]

theorem tryPat_eq_true (p : List Char) (k : List Char → Bool) (cs : List Char) :
    tryPat p k cs = true ↔ ∃ r, cs = p ++ r ∧ k r = true := by
  unfold tryPat
  cases hs : stripPat p cs with
  | none =>
      simp only [Bool.false_eq_true, false_iff]
      rintro ⟨r, rfl, _⟩
      rw [(stripPat_eq_some p (p ++ r) r).mpr rfl] at hs
      exact Option.noConfusion hs
  | some r0 =>
      have h0 : cs = p ++ r0 := (stripPat_eq_some p cs r0).mp hs
      constructor
      · intro hk
        exact ⟨r0, h0, hk⟩
      · rintro ⟨r, hr, hk⟩
        have : p ++ r0 = p ++ r := by rw [← h0, hr]
        have : r0 = r := List.append_cancel_left this
        rw [this]
        exact hk

theorem dotPlusAt_eq_true (cs : List Char) :
    dotPlusAt cs = true ↔ ∃ c rest, cs = c :: rest ∧ isLineTerm c = false := by
  cases cs with
  | nil => simp [dotPlusAt]
  | cons c rest =>
      simp only [dotPlusAt, Bool.not_eq_true']
      constructor
      · intro h
        exact ⟨c, rest, rfl, h⟩
      · rintro ⟨c2, r2, heq, h2⟩
        cases heq
        exact h2

theorem hostCheck_iff (cs : List Char) :
    hostCheck cs = true ↔
      ∃ h ∈ hostOpts, ∃ c rest, cs = h ++ (c :: rest) ∧ isLineTerm c = false := by
  unfold hostCheck
  rw [Bool.or_eq_true, tryPat_eq_true, tryPat_eq_true]
  constructor
  · rintro (⟨r, hr, hd⟩ | ⟨r, hr, hd⟩) <;>
      obtain ⟨c, rest, rfl, hc⟩ := (dotPlusAt_eq_true r).mp hd
    · exact ⟨"youtube.com/".data, by simp [hostOpts], c, rest, hr, hc⟩
    · exact ⟨"youtu.be/".data, by simp [hostOpts], c, rest, hr, hc⟩
  · rintro ⟨h, hmem, c, rest, rfl, hc⟩
    have hd : dotPlusAt (c :: rest) = true :=
      (dotPlusAt_eq_true _).mpr ⟨c, rest, rfl, hc⟩
    simp only [hostOpts, List.mem_cons, List.not_mem_nil, or_false] at hmem
    rcases hmem with rfl | rfl
    · exact Or.inl ⟨c :: rest, rfl, hd⟩
    · exact Or.inr ⟨c :: rest, rfl, hd⟩

theorem wwwCheck_iff (cs : List Char) :
    wwwCheck cs = true ↔
      ∃ p2 ∈ wwwOpts, ∃ r, cs = p2 ++ r ∧ hostCheck r = true := by
  unfold wwwCheck
  rw [Bool.or_eq_true, tryPat_eq_true]
  constructor
  · rintro (⟨r, hr, hk⟩ | hk)
    · exact ⟨"www.".data, by simp [wwwOpts], r, hr, hk⟩
    · exact ⟨[], by simp [wwwOpts], cs, by simp, hk⟩
  · rintro ⟨p2, hmem, r, rfl, hk⟩
    simp only [wwwOpts, List.mem_cons, List.not_mem_nil, or_false] at hmem
    rcases hmem with rfl | rfl
    · exact Or.inr (by simpa using hk)
    · exact Or.inl ⟨r, rfl, hk⟩

theorem isValid_iff_wwwCheck (url : String) :
    isValidYouTubeUrl url = true ↔
      ∃ p1 ∈ schemeOpts, ∃ r, url.data = p1 ++ r ∧ wwwCheck r = true := by
  unfold isValidYouTubeUrl
  rw [Bool.or_eq_true, Bool.or_eq_true, tryPat_eq_true, tryPat_eq_true]
  constructor
  · rintro ((⟨r, hr, hk⟩ | ⟨r, hr, hk⟩) | hk)
    · exact ⟨"http://".data, by simp [schemeOpts], r, hr, hk⟩
    · exact ⟨"https://".data, by simp [schemeOpts], r, hr, hk⟩
    · exact ⟨[], by simp [schemeOpts], url.data, by simp, hk⟩
  · rintro ⟨p1, hmem, r, hr, hk⟩
    simp only [schemeOpts, List.mem_cons, List.not_mem_nil, or_false] at hmem
    rcases hmem with rfl | rfl | rfl
    · simp only [List.nil_append] at hr
      exact Or.inr (hr ▸ hk)
    · exact Or.inl (Or.inl ⟨r, hr, hk⟩)
    · exact Or.inl (Or.inr ⟨r, hr, hk⟩)

/-- C1 amendment: the validator accepts exactly the strings built from an
optional scheme, an optional www prefix, one of the two hosts with its
slash, and at least one further character that is not a line terminator. -/
theorem isValid_iff_claimShapeAmended (url : String) :
    isValidYouTubeUrl url = true ↔ claimShapeAmended url.data := by
  rw [isValid_iff_wwwCheck]
  unfold claimShapeAmended
  constructor
  · rintro ⟨p1, h1, r, hr, hw⟩
    obtain ⟨p2, h2, r2, rfl, hh⟩ := (wwwCheck_iff r).mp hw
    obtain ⟨h, h3, c, rest, rfl, hc⟩ := (hostCheck_iff r2).mp hh
    exact ⟨p1, h1, p2, h2, h, h3, c, rest, hr, hc⟩
  · rintro ⟨p1, h1, p2, h2, h, h3, c, rest, hr, hc⟩
    refine ⟨p1, h1, p2 ++ (h ++ (c :: rest)), hr, ?_⟩
    refine (wwwCheck_iff _).mpr ⟨p2, h2, h ++ (c :: rest), rfl, ?_⟩
    exact (hostCheck_iff _).mpr ⟨h, h3, c, rest, rfl, hc⟩

/-- C1 counterexample: the string youtube.com slash newline has the shape
the claim describes, yet the validator rejects it, because the dot
metacharacter does not match a line terminator. -/
theorem isValid_claim_counterexample :
    claimShape ("youtube.com/\n".data) ∧ isValidYouTubeUrl "youtube.com/\n" = false := by
  constructor
  · refine ⟨[], by simp [schemeOpts], [], by simp [wwwOpts],
      "youtube.com/".data, by simp [hostOpts], ['\n'], by decide, by decide⟩
  · decide

theorem group7_no_special (cs : List Char) :
    ∀ c ∈ group7 cs, c ≠ '#' ∧ c ≠ '&' ∧ c ≠ '?' := by
  induction cs with
  | nil => simp [group7]
  | cons x rest ih =>
      simp only [group7]
      by_cases h : (x == '#' || x == '&' || x == '?') = true
      · simp [h]
      · rw [if_neg h]
        simp only [Bool.or_eq_true, beq_iff_eq, not_or] at h
        intro c hc
        rcases List.mem_cons.mp hc with rfl | hc2
        · exact ⟨h.1.1, h.1.2, h.2⟩
        · exact ih c hc2

theorem match7_no_special (url : String) (g : List Char) (h : match7 url = some g) :
    ∀ c ∈ g, c ≠ '#' ∧ c ≠ '&' ∧ c ≠ '?' := by
  unfold match7 at h
  cases hs : scanAlt url.data with
  | none => rw [hs] at h; exact Option.noConfusion h
  | some r =>
      rw [hs] at h
      have hg : group7 (skipOpt '=' (skipOpt 'v' (skipOpt '?' r))) = g :=
        Option.some.inj h
      rw [← hg]
      exact group7_no_special _

/-- C2: the extractor returns a string exactly when that string is the
seventh capture of its regex and has length eleven; such a string never
contains a hash, ampersand or question mark, the characters at which the
capture stops. -/
theorem extractVideoId_iff_group7 (url : String) (s : String) :
    extractVideoId url = some s ↔
      (match7 url = some s.data ∧ s.length = 11 ∧
        ∀ c ∈ s.data, c ≠ '#' ∧ c ≠ '&' ∧ c ≠ '?') := by
  cases hm : match7 url with
  | none =>
      have hred : extractVideoId url = none := by
        unfold extractVideoId; rw [hm]
      simp [hred]
  | some g =>
      have hred : extractVideoId url =
          (if g.length = 11 then some (String.mk g) else none) := by
        unfold extractVideoId; rw [hm]
      rw [hred]
      by_cases hl : g.length = 11
      · rw [if_pos hl]
        constructor
        · intro h
          have hsg : String.mk g = s := Option.some.inj h
          have hdata : s.data = g := by rw [← hsg]
          refine ⟨by rw [hdata], ?_, ?_⟩
          · show s.data.length = 11
            rw [hdata]; exact hl
          · rw [hdata]; exact match7_no_special url g hm
        · rintro ⟨hg, _, _⟩
          have hgd : g = s.data := Option.some.inj hg
          rw [hgd]
      · rw [if_neg hl]
        constructor
        · intro h; exact Option.noConfusion h
        · rintro ⟨hg, hlen, _⟩
          have hgd : g = s.data := Option.some.inj hg
          exact absurd (by rw [hgd]; exact hlen) hl

/-- C3: a submit whose url is empty after trimming stores the first prompt
text and returns at once; a nonempty url the validator refuses stores the
second prompt text; in both cases no request is issued and loading,
downloadData and progress keep their values, since the whole state apart
from the error text is returned unchanged. -/
theorem handleSubmit_rejects_invalid (s : CState) (o : InfoOutcome) :
    (trimData s.url.data = [] →
      handleSubmit s o = ({ s with error := "Please enter a YouTube URL" }, [])) ∧
    (trimData s.url.data ≠ [] → isValidYouTubeUrl s.url = false →
      handleSubmit s o = ({ s with error := "Please enter a valid YouTube URL" }, [])) := by
  constructor
  · intro h
    simp [handleSubmit, h]
  · intro h1 h2
    simp [handleSubmit, h1, h2]

theorem handleSubmit_rejects_invalid_witness :
    handleSubmit
        { url := "   ", loading := false, error := "", downloadData := none, progress := 0 }
        InfoOutcome.httpError
      = ({ url := "   ", loading := false, error := "Please enter a YouTube URL",
           downloadData := none, progress := 0 }, []) ∧
    handleSubmit
        { url := "m.youtube.com/watch", loading := false, error := "", downloadData := none,
          progress := 0 }
        InfoOutcome.httpError
      = ({ url := "m.youtube.com/watch", loading := false,
           error := "Please enter a valid YouTube URL",
           downloadData := none, progress := 0 }, []) :=
  ⟨(handleSubmit_rejects_invalid _ _).1 (by decide),
   (handleSubmit_rejects_invalid _ _).2 (by decide) (by decide)⟩

/-- C4: each handler issues at most one request per action, the submit
handler only the metadata POST with the url in its body, the download
handler only the download POST with url, videoId and title in its body; no
other request ever appears in a request trace. -/
theorem requests_at_most_one (s : CState) (o1 : InfoOutcome) (o2 : DlOutcome) :
    ((handleSubmit s o1).2 = [] ∨ (handleSubmit s o1).2 = [infoRequest s.url]) ∧
    ((handleDownload s o2).2 = [] ∨
      ∃ dd, s.downloadData = some dd ∧
        (handleDownload s o2).2 = [downloadRequest s.url dd]) := by
  constructor
  · unfold handleSubmit
    by_cases h1 : trimData s.url.data = []
    · simp [h1]
    · by_cases h2 : isValidYouTubeUrl s.url = false
      · simp [h1, h2]
      · cases o1 <;> simp [h1, h2]
  · unfold handleDownload
    cases hd : s.downloadData with
    | none => simp
    | some dd => cases o2 <;> exact Or.inr ⟨dd, rfl, rfl⟩

/-- C5: when the metadata response is not ok the handler throws an error
whose message is the fixed failure text and the catch branch stores that
message; when the fetch itself throws, the caught message is stored with
the generic fallback for an absent or empty message; on both paths exactly
one request was issued, there is no retry, and downloadData is the null it
was reset to. -/
theorem handleSubmit_error_paths (s : CState) (msg : Option String)
    (h1 : trimData s.url.data ≠ []) (h2 : isValidYouTubeUrl s.url = true) :
    (handleSubmit s InfoOutcome.httpError).1.error = "Failed to get video information" ∧
    (handleSubmit s InfoOutcome.httpError).1.downloadData = none ∧
    (handleSubmit s InfoOutcome.httpError).2 = [infoRequest s.url] ∧
    (handleSubmit s (InfoOutcome.netError msg)).1.error
      = messageOrDefault msg genericSubmitError ∧
    (handleSubmit s (InfoOutcome.netError msg)).1.downloadData = none ∧
    (handleSubmit s (InfoOutcome.netError msg)).2 = [infoRequest s.url] := by
  simp [handleSubmit, h1, h2, messageOrDefault]

theorem handleSubmit_error_paths_witness :
    (handleSubmit
        { url := "https://youtu.be/dQw4w9WgXcQ", loading := false, error := "",
          downloadData := none, progress := 0 }
        InfoOutcome.httpError).1.error = "Failed to get video information" :=
  (handleSubmit_error_paths
    { url := "https://youtu.be/dQw4w9WgXcQ", loading := false, error := "",
      downloadData := none, progress := 0 }
    none (by decide) (by decide)).1

/-- C6: the rewrite rule sends the path made of the api segment and any
suffix of further segments to the same path at the backend origin, and
every rewritten path keeps its suffix unchanged, so the browser path
determines the backend path one to one. -/
theorem rewriteApi_preserves_suffix (suffix : List String) :
    rewriteApi ("api" :: suffix) = some (backendOrigin, "api" :: suffix) ∧
    ∀ p dest, rewriteApi p = some dest → dest.1 = backendOrigin ∧ dest.2 = p := by
  constructor
  · simp [rewriteApi]
  · intro p dest h
    cases p with
    | nil => simp [rewriteApi] at h
    | cons seg rest =>
        simp only [rewriteApi] at h
        by_cases hs : seg = "api"
        · rw [if_pos hs] at h
          have hdest := Option.some.inj h
          rw [← hdest]
          exact ⟨rfl, rfl⟩
        · rw [if_neg hs] at h
          exact Option.noConfusion h

theorem rewriteApi_preserves_suffix_witness :
    rewriteApi ["api", "video-info"] = some (backendOrigin, ["api", "video-info"]) :=
  (rewriteApi_preserves_suffix ["video-info"]).1

/-- C7: a submit that passes both input checks and receives an ok response
stores the parsed body as downloadData exactly as it was received. -/
theorem handleSubmit_success_passthrough (s : CState) (info : Json)
    (h1 : trimData s.url.data ≠ []) (h2 : isValidYouTubeUrl s.url = true) :
    (handleSubmit s (InfoOutcome.success info)).1.downloadData = some info := by
  simp [handleSubmit, h1, h2]

theorem handleSubmit_success_passthrough_witness :
    (handleSubmit
        { url := "https://youtu.be/dQw4w9WgXcQ", loading := false, error := "",
          downloadData := none, progress := 0 }
        (InfoOutcome.success (Json.obj [("videoId", Json.str "dQw4w9WgXcQ"),
          ("title", Json.str "Test")]))).1.downloadData
      = some (Json.obj [("videoId", Json.str "dQw4w9WgXcQ"), ("title", Json.str "Test")]) :=
  handleSubmit_success_passthrough
    { url := "https://youtu.be/dQw4w9WgXcQ", loading := false, error := "",
      downloadData := none, progress := 0 }
    (Json.obj [("videoId", Json.str "dQw4w9WgXcQ"), ("title", Json.str "Test")])
    (by decide) (by decide)

/-- C8: the validator and the extractor depend only on their string
argument and pass the component state through untouched: two calls in any
two states agree on the result, and each call returns the state it was
given. -/
theorem helpers_stateless (s1 s2 : CState) (u : String) :
    (isValidYouTubeUrlST s1 u).1 = (isValidYouTubeUrlST s2 u).1 ∧
    (isValidYouTubeUrlST s1 u).2 = s1 ∧
    (extractVideoIdST s1 u).1 = (extractVideoIdST s2 u).1 ∧
    (extractVideoIdST s1 u).2 = s1 :=
  ⟨rfl, rfl, rfl, rfl⟩

/-- C9: every run of the submit handler past the input checks ends with
loading false, whatever the outcome of the fetch, because the finally
branch clears it on the success path and on both error paths. -/
theorem handleSubmit_clears_loading (s : CState) (o : InfoOutcome)
    (h1 : trimData s.url.data ≠ []) (h2 : isValidYouTubeUrl s.url = true) :
    (handleSubmit s o).1.loading = false := by
  cases o <;> simp [handleSubmit, h1, h2]

theorem handleSubmit_clears_loading_witness :
    (handleSubmit
        { url := "https://youtu.be/dQw4w9WgXcQ", loading := true, error := "",
          downloadData := none, progress := 0 }
        (InfoOutcome.netError none)).1.loading = false :=
  handleSubmit_clears_loading
    { url := "https://youtu.be/dQw4w9WgXcQ", loading := true, error := "",
      downloadData := none, progress := 0 }
    (InfoOutcome.netError none) (by decide) (by decide)

/-- C10: with no stored metadata the download handler is a no-op: it
returns the state unchanged in every field and issues no request. -/
theorem handleDownload_noop (s : CState) (o : DlOutcome)
    (h : s.downloadData = none) :
    handleDownload s o = (s, []) := by
  unfold handleDownload
  rw [h]

theorem handleDownload_noop_witness :
    handleDownload
        { url := "youtube.com/x", loading := false, error := "", downloadData := none,
          progress := 0 }
        DlOutcome.success
      = ({ url := "youtube.com/x", loading := false, error := "", downloadData := none,
           progress := 0 }, []) :=
  handleDownload_noop
    { url := "youtube.com/x", loading := false, error := "", downloadData := none,
      progress := 0 }
    DlOutcome.success rfl

/-- C2 witness: a concrete url on which the extractor returns the eleven
character capture. -/
theorem extractVideoId_iff_group7_witness :
    extractVideoId "https://youtu.be/dQw4w9WgXcQ" = some "dQw4w9WgXcQ" :=
  (extractVideoId_iff_group7 "https://youtu.be/dQw4w9WgXcQ" "dQw4w9WgXcQ").mpr
    ⟨by decide, by decide, by decide⟩

example : isValidYouTubeUrl "https://www.youtube.com/watch?v=dQw4w9WgXcQ" = true := by decide
example : isValidYouTubeUrl "https://youtu.be/dQw4w9WgXcQ" = true := by decide
example : isValidYouTubeUrl "youtube.com/x" = true := by decide
example : isValidYouTubeUrl "m.youtube.com/x" = false := by decide
example : isValidYouTubeUrl "https://vimeo.com/123" = false := by decide
example : isValidYouTubeUrl "youtube.com/" = false := by decide
example : extractVideoId "https://www.youtube.com/watch?v=dQw4w9WgXcQ" = some "dQw4w9WgXcQ" := by decide
example : extractVideoId "https://youtu.be/dQw4w9WgXcQ" = some "dQw4w9WgXcQ" := by decide
example : extractVideoId "https://youtu.be/short" = none := by decide
example : extractVideoId "nonsense" = none := by decide
